import Mathlib

/-!
Verification of the subscription-reconciliation and event-routing core of
the overlays repository (`src/lib/twitch.ts`), as a shallow embedding.

The embedding covers:
* the EventSub reconciler `setupEventSub` (desired-type list, lookup of an
  existing subscription per type, delete-then-create for unhealthy ones);
* the registry-mutating semantics of the platform's delete/create calls,
  needed to speak about the registry state after reconciliation;
* the exception behaviour of `deleteSubscription` (no try/catch in the
  source) and `createSubscription` (try/catch that logs and swallows);
* the chat-message handler installed by `setupChatBot`;
* the redemption dispatcher `redeem` / `redeemShell` / `redeemSnapFilter` /
  `redeemGiveawayEntry`, with the reward table of `src/lib/rewards.ts`
  modelled from the spec (the file is not part of the sources given).

Side effects are embedded as traces of `Effect` values; exceptions as an
explicit boolean / `Except` result; the outcome of an external call (a
fetch that may reject at network level, a collaborator that may throw) is
an oracle argument.
-/

namespace Overlays

/-- The `TwitchEventType` union of `src/lib/twitch.ts` (lines 138-148). -/
inductive TwitchEventType where
  | channelFollow
  | channelSubscribe
  | channelPointsRedemptionAdd
  | channelUpdate
  | channelCheer
  | channelSubscriptionGift
  | channelRaid
  | channelHypeTrainBegin
  | channelHypeTrainProgress
  | channelHypeTrainEnd
deriving DecidableEq, Repr

/-- The `status` union of `TwitchEventSubscription` (lines 161-167). -/
inductive SubscriptionStatus where
  | enabled
  | webhookCallbackVerificationPending
  | webhookCallbackVerificationFailed
  | notificationFailuresExceeded
  | authorizationRevoked
  | userRemoved
deriving DecidableEq, Repr

/-- The two condition objects the reconciler ever builds: the default
`{broadcaster_user_id: userId}` filter and the raid override
`{to_broadcaster_user_id: userId}` (lines 219 and 246). -/
inductive Condition where
  | broadcasterUserId (userId : String)
  | toBroadcasterUserId (userId : String)
deriving DecidableEq, Repr

/-- A remote EventSub subscription as listed by the management API
(`TwitchEventSubscription`, lines 159-177); only the fields the
reconciler reads. Ids are modelled as naturals. -/
structure Subscription where
  id : Nat
  status : SubscriptionStatus
  type : TwitchEventType
  condition : Condition
deriving DecidableEq, Repr

/-- The healthy-status test of the loop guard (lines 225-226):
`enabled` or `webhook_callback_verification_pending`. -/
def isHealthy (s : SubscriptionStatus) : Bool :=
  s == SubscriptionStatus.enabled ||
    s == SubscriptionStatus.webhookCallbackVerificationPending

/-- The fixed desired-subscription list `eventTypes` (lines 212-220):
seven types, with a condition override only for `channel.raid`. -/
def eventTypes (userId : String) : List (TwitchEventType × Option Condition) :=
  [(TwitchEventType.channelFollow, none),
   (TwitchEventType.channelSubscribe, none),
   (TwitchEventType.channelPointsRedemptionAdd, none),
   (TwitchEventType.channelUpdate, none),
   (TwitchEventType.channelCheer, none),
   (TwitchEventType.channelSubscriptionGift, none),
   (TwitchEventType.channelRaid, some (Condition.toBroadcasterUserId userId))]

/-- A registry-mutating call the reconciler issues: an HTTP DELETE for a
subscription id, or a POST creating a subscription of a type with a
condition. -/
inductive SubAction where
  | delete (id : Nat)
  | create (type : TwitchEventType) (condition : Condition)
deriving DecidableEq, Repr

/-- One iteration of the `setupEventSub` loop body (lines 221-248) for a
desired `(eventType, condition)` pair, as the list of registry calls it
issues: find the first existing subscription of that type in the listing;
skip when healthy; otherwise delete it (when present) and create a fresh
one with the resolved condition `condition ?? {broadcaster_user_id}`. -/
def actionsForType (subscriptions : List Subscription) (userId : String)
    (entry : TwitchEventType × Option Condition) : List SubAction :=
  match subscriptions.find? (fun sub => sub.type == entry.1) with
  | some existing =>
    if isHealthy existing.status then []
    else
      [SubAction.delete existing.id,
       SubAction.create entry.1
         (entry.2.getD (Condition.broadcasterUserId userId))]
  | none =>
    [SubAction.create entry.1
       (entry.2.getD (Condition.broadcasterUserId userId))]

/-- The full sequence of delete/create calls `setupEventSub` issues, in
order: the loop walks the desired list and finds against the one listing
fetched before the loop (line 208). -/
def reconcileActions (subscriptions : List Subscription) (userId : String) :
    List SubAction :=
  (eventTypes userId).flatMap (actionsForType subscriptions userId)

/-- Modelled from the spec: the remote registry's reaction to one
management call (`src/lib/twitch.ts` only issues the calls; the registry
itself is the platform's). DELETE removes the subscription with the given
id; POST appends a new subscription with the requested type and condition,
a fresh id, and a status that is healthy-pending until webhook
verification (the spec counts `pending-verification` as healthy). -/
def applyAction (registry : List Subscription) (freshId : Nat) :
    SubAction → List Subscription × Nat
  | SubAction.delete i => (registry.filter (fun s => s.id != i), freshId)
  | SubAction.create t c =>
      (registry ++
        [{ id := freshId,
           status := SubscriptionStatus.webhookCallbackVerificationPending,
           type := t, condition := c }],
       freshId + 1)

/-- Folds a sequence of registry calls over a registry state, threading
the fresh-id supply. -/
def applyActions : List Subscription × Nat → List SubAction →
    List Subscription × Nat
  | st, [] => st
  | (reg, next), a :: rest => applyActions (applyAction reg next a) rest

/-- The registry state after `setupEventSub` completes, starting from the
listed registry `subscriptions` (the same list the loop finds against)
with `freshId` the first id the platform assigns to a new subscription. -/
def setupEventSub (subscriptions : List Subscription) (userId : String)
    (freshId : Nat) : List Subscription :=
  (applyActions (subscriptions, freshId)
    (reconcileActions subscriptions userId)).1

/-- The subscription a create call adds (see `applyAction`): fresh id,
healthy-pending status, the requested type and condition. -/
def newSubscription (freshId : Nat) (t : TwitchEventType) (c : Condition) :
    Subscription :=
  { id := freshId,
    status := SubscriptionStatus.webhookCallbackVerificationPending,
    type := t, condition := c }

/-- The subscriptions of a given type in a registry. -/
def typeSubs (registry : List Subscription) (t : TwitchEventType) :
    List Subscription :=
  registry.filter (fun s => s.type == t)

/-- How many healthy subscriptions of a given type a registry holds. -/
def healthyCount (registry : List Subscription) (t : TwitchEventType) : Nat :=
  ((typeSubs registry t).filter (fun s => isHealthy s.status)).length

/-- Does a registry call create a subscription of the given type? -/
def isCreateFor (t : TwitchEventType) : SubAction → Bool
  | SubAction.create u _ => u == t
  | SubAction.delete _ => false

/-- Outcome of one outbound fetch: resolves, or rejects at network level
(a non-2xx HTTP response resolves normally and is not a rejection). -/
inductive CallResult where
  | ok
  | netError
deriving DecidableEq, Repr

/-- Exception behaviour of `deleteSubscription` (lines 418-440): the
DELETE fetch is awaited with no try/catch, so a network rejection
propagates to the caller as an exception. -/
def deleteSubscription (r : CallResult) : Except Unit Unit :=
  match r with
  | CallResult.ok => Except.ok ()
  | CallResult.netError => Except.error ()

/-- Exception behaviour of `createSubscription` (lines 442-487): the POST
and response parse sit inside try/catch; an error is logged and swallowed,
so the call never throws to the caller. -/
def createSubscription (r : CallResult) : Except Unit Unit :=
  match r with
  | CallResult.ok => Except.ok ()
  | CallResult.netError => Except.ok ()

/-- Control flow of the `setupEventSub` loop (lines 221-248) when the
outbound calls may reject: walks the desired list; `delO` gives each
delete's outcome by subscription id, `crO` each create's outcome by type.
Returns the desired types whose iteration ran to completion, and whether
an uncaught exception escaped the loop (aborting the remaining types). -/
def setupEventSubRun (subscriptions : List Subscription) (userId : String)
    (delO : Nat → CallResult) (crO : TwitchEventType → CallResult) :
    List (TwitchEventType × Option Condition) →
      List TwitchEventType × Bool
  | [] => ([], false)
  | entry :: rest =>
    match subscriptions.find? (fun sub => sub.type == entry.1) with
    | some existing =>
      if isHealthy existing.status then
        let tail := setupEventSubRun subscriptions userId delO crO rest
        (entry.1 :: tail.1, tail.2)
      else
        match deleteSubscription (delO existing.id) with
        | Except.error _ => ([], true)
        | Except.ok _ =>
          match createSubscription (crO entry.1) with
          | Except.error _ => ([], true)
          | Except.ok _ =>
            let tail := setupEventSubRun subscriptions userId delO crO rest
            (entry.1 :: tail.1, tail.2)
    | none =>
      match createSubscription (crO entry.1) with
      | Except.error _ => ([], true)
      | Except.ok _ =>
        let tail := setupEventSubRun subscriptions userId delO crO rest
        (entry.1 :: tail.1, tail.2)

/-- The reward kinds of the dispatcher (spec §3: shell, snap-filter,
giveaway-entry). -/
inductive RewardType where
  | shell
  | snapFilter
  | giveawayEntry
deriving DecidableEq, Repr

/-- Modelled from the spec: `src/lib/rewards.ts` (not among the given
sources) defines the Reward table. Spec §3: Reward = {id, type (shell |
snap-filter | giveaway-entry), scene (optional), type-specific fields
(script path, filter key)}, sourced from static configuration, read-only
at runtime. -/
structure Reward where
  id : String
  type : RewardType
  scene : Option String
  script : Option String
  key : Option String
deriving DecidableEq, Repr

/-- Modelled from the spec: `getReward` of `src/lib/rewards.ts` (not among
the given sources) looks a Reward up by reward id in the static
configuration; absent ids yield nothing. -/
def getReward (config : List Reward) (rewardId : String) : Option Reward :=
  config.find? (fun r => r.id == rewardId)

/-- The fields of the redemption payload the dispatcher reads
(`TwitchChannelRedemptionEvent.event`, lines 60-77). -/
structure RedemptionPayload where
  id : String
  userId : String
  userLogin : String
  userName : String
  userInput : String
  rewardId : String
deriving DecidableEq, Repr

/-- The normalized chat event forwarded to the websocket sink
(`TwitchChatEvent`, lines 12-18). -/
structure TwitchChatEvent where
  channel : String
  user : String
  message : String
  broadcaster : Bool
  moderator : Bool
deriving DecidableEq, Repr

/-- A call to one of the external collaborators, recorded as a trace
element. -/
inductive Effect where
  | openScript (script : String)
  | toggleSnapFilter (key : String)
  | handleNewEntry (userName : String)
  | switchScene (scene : String)
  | selectWinner
  | emitChatEvent (e : TwitchChatEvent)
deriving DecidableEq, Repr

/-- Outcome of one collaborator side effect: succeeds, or throws. -/
inductive ActionResult where
  | ok
  | fail
deriving DecidableEq, Repr

/-- `redeemShell` (lines 319-328): no-op when no script is configured;
otherwise launches the script, and a failure of the launch is caught and
logged (try/catch), so the call never throws to `redeem`. Returns the
trace and whether an exception escaped. -/
def redeemShell (reward : Reward) (r : ActionResult) : List Effect × Bool :=
  match reward.script with
  | none => ([], false)
  | some script =>
    match r with
    | ActionResult.ok => ([Effect.openScript script], false)
    | ActionResult.fail => ([Effect.openScript script], false)

/-- `redeemSnapFilter` (lines 330-339): no-op when no key is configured;
otherwise toggles the filter, and a failure is caught and logged
(try/catch), so the call never throws to `redeem`. -/
def redeemSnapFilter (reward : Reward) (r : ActionResult) :
    List Effect × Bool :=
  match reward.key with
  | none => ([], false)
  | some key =>
    match r with
    | ActionResult.ok => ([Effect.toggleSnapFilter key], false)
    | ActionResult.fail => ([Effect.toggleSnapFilter key], false)

/-- `redeemGiveawayEntry` (lines 341-343): calls
`giveaways.handleNewEntry(userName)` with no try/catch, so a throwing
collaborator propagates the exception to `redeem`. -/
def redeemGiveawayEntry (userName : String) (r : ActionResult) :
    List Effect × Bool :=
  match r with
  | ActionResult.ok => ([Effect.handleNewEntry userName], false)
  | ActionResult.fail => ([Effect.handleNewEntry userName], true)

/-- The dispatcher `redeem` (lines 297-317): looks the reward up by the
payload's reward id; dispatches on its type to exactly one action; then,
unless that action threw, switches scene when the reward declares one.
The boolean is whether an exception escaped `redeem` to its caller. -/
def redeem (config : List Reward) (payload : RedemptionPayload)
    (shellR snapR giveawayR : ActionResult) : List Effect × Bool :=
  match getReward config payload.rewardId with
  | none => ([], false)
  | some reward =>
    let acted :=
      match reward.type with
      | RewardType.shell => redeemShell reward shellR
      | RewardType.snapFilter => redeemSnapFilter reward snapR
      | RewardType.giveawayEntry =>
          redeemGiveawayEntry payload.userName giveawayR
    if acted.2 then (acted.1, true)
    else
      match reward.scene with
      | some scene => (acted.1 ++ [Effect.switchScene scene], false)
      | none => (acted.1, false)

/-- The chat-message handler installed by `setupChatBot` (lines 264-283):
when the text starts with the command token and the sender is the
configured channel owner, select a giveaway winner; then, in every case,
forward the normalized chat event to the websocket sink. -/
def onChatMessage (username channel user message : String)
    (isBroadcaster isMod : Bool) : List Effect :=
  (if message.startsWith "!winner" && user == username then
    [Effect.selectWinner]
  else []) ++
    [Effect.emitChatEvent
      { channel := channel, user := user, message := message,
        broadcaster := isBroadcaster, moderator := isMod }]

/-! Theorems. -/

theorem isHealthy_pending :
    isHealthy SubscriptionStatus.webhookCallbackVerificationPending = true := rfl

theorem applyActions_append (st : List Subscription × Nat)
    (as bs : List SubAction) :
    applyActions st (as ++ bs) = applyActions (applyActions st as) bs := by
  induction as generalizing st with
  | nil => rfl
  | cons a rest ih =>
    obtain ⟨reg, next⟩ := st
    simp only [List.cons_append, applyActions]
    exact ih _

theorem typeSubs_append (l r : List Subscription) (t : TwitchEventType) :
    typeSubs (l ++ r) t = typeSubs l t ++ typeSubs r t :=
  List.filter_append _ _

theorem typeSubs_filter_comm (reg : List Subscription) (q : Subscription → Bool)
    (t : TwitchEventType) :
    typeSubs (reg.filter q) t = (typeSubs reg t).filter q := by
  unfold typeSubs
  rw [List.filter_filter, List.filter_filter]
  exact List.filter_congr fun a _ => Bool.and_comm _ _

theorem length_le_one_eq_singleton {α : Type _} {l : List α} {a : α}
    (hlen : l.length ≤ 1) (ha : a ∈ l) : l = [a] := by
  cases l with
  | nil => cases ha
  | cons x xs =>
    cases xs with
    | nil =>
      have hax : a = x := by simpa using ha
      subst hax
      rfl
    | cons y ys =>
      simp only [List.length_cons] at hlen
      omega

theorem typeSubs_of_find?_eq_some (subs0 : List Subscription)
    (T : TwitchEventType) (e : Subscription)
    (hfind : subs0.find? (fun s => s.type == T) = some e)
    (hlen : (typeSubs subs0 T).length ≤ 1) :
    typeSubs subs0 T = [e] := by
  have hmem : e ∈ subs0 := List.mem_of_find?_eq_some hfind
  have hpred := List.find?_some hfind
  exact length_le_one_eq_singleton hlen (List.mem_filter.mpr ⟨hmem, hpred⟩)

theorem typeSubs_of_find?_eq_none (subs0 : List Subscription)
    (T : TwitchEventType)
    (hfind : subs0.find? (fun s => s.type == T) = none) :
    typeSubs subs0 T = [] := by
  unfold typeSubs
  rw [List.filter_eq_nil_iff]
  exact List.find?_eq_none.mp hfind

/-- Invariant of the reconciliation loop: processing a suffix of desired
entries, against a listing with at most one subscription of each desired
type and a current registry agreeing with the listing on the unprocessed
types, leaves exactly one healthy subscription of each processed type and
does not touch subscriptions of types outside the suffix. -/
theorem reconcile_loop_invariant (subs0 : List Subscription) (userId : String)
    (l : List (TwitchEventType × Option Condition)) :
    ∀ (reg : List Subscription) (next : Nat),
      (l.map Prod.fst).Nodup →
      (∀ p ∈ l, (typeSubs subs0 p.1).length ≤ 1) →
      (∀ p ∈ l, typeSubs reg p.1 = typeSubs subs0 p.1) →
      (∀ s ∈ reg, s.id < next) →
      (reg.map Subscription.id).Nodup →
      (∀ p ∈ l,
          healthyCount
            (applyActions (reg, next)
              (l.flatMap (actionsForType subs0 userId))).1 p.1 = 1) ∧
      (∀ t : TwitchEventType, t ∉ l.map Prod.fst →
          typeSubs
            (applyActions (reg, next)
              (l.flatMap (actionsForType subs0 userId))).1 t =
            typeSubs reg t) := by
  induction l with
  | nil =>
    intro reg next _ _ _ _ _
    exact ⟨fun p hp => (List.not_mem_nil p hp).elim, fun t _ => rfl⟩
  | cons hd tl ih =>
    intro reg next hnodupT hlen hregs hfresh hids
    rw [List.map_cons, List.nodup_cons] at hnodupT
    obtain ⟨hhd, hnodupT'⟩ := hnodupT
    have hlen' : ∀ p ∈ tl, (typeSubs subs0 p.1).length ≤ 1 :=
      fun p hp => hlen p (List.mem_cons_of_mem _ hp)
    have hne : ∀ p ∈ tl, p.1 ≠ hd.1 := by
      intro p hp heq
      exact hhd (heq ▸ List.mem_map.mpr ⟨p, hp, rfl⟩)
    have hsingle : ∀ (c : Condition) (t : TwitchEventType), t ≠ hd.1 →
        typeSubs [newSubscription next hd.1 c] t = [] := by
      intro c t hte
      have hbe : (hd.1 == t) = false := beq_eq_false_iff_ne.mpr fun h => hte h.symm
      simp [typeSubs, newSubscription, List.filter, hbe]
    have hsingleSelf : ∀ (c : Condition) (m : Nat),
        typeSubs [newSubscription m hd.1 c] hd.1 =
          [newSubscription m hd.1 c] := by
      intro c m
      simp [typeSubs, newSubscription, List.filter]
    rw [List.flatMap_cons, applyActions_append]
    cases hfind : subs0.find? (fun sub => sub.type == hd.1) with
    | none =>
      have hact : actionsForType subs0 userId hd =
          [SubAction.create hd.1
            (hd.2.getD (Condition.broadcasterUserId userId))] := by
        simp [actionsForType, hfind]
      rw [hact]
      have happ : applyActions (reg, next)
          [SubAction.create hd.1
            (hd.2.getD (Condition.broadcasterUserId userId))] =
          (reg ++ [newSubscription next hd.1
            (hd.2.getD (Condition.broadcasterUserId userId))],
           next + 1) := rfl
      rw [happ]
      have hregs' : ∀ p ∈ tl,
          typeSubs (reg ++ [newSubscription next hd.1
            (hd.2.getD (Condition.broadcasterUserId userId))]) p.1 =
            typeSubs subs0 p.1 := by
        intro p hp
        rw [typeSubs_append, hsingle _ p.1 (hne p hp), List.append_nil]
        exact hregs p (List.mem_cons_of_mem _ hp)
      have hfresh' : ∀ s ∈ reg ++ [newSubscription next hd.1
          (hd.2.getD (Condition.broadcasterUserId userId))],
          s.id < next + 1 := by
        intro s hs
        rcases List.mem_append.mp hs with h | h
        · exact Nat.lt_succ_of_lt (hfresh s h)
        · have hs2 : s = newSubscription next hd.1
              (hd.2.getD (Condition.broadcasterUserId userId)) := by
            simpa using h
          subst hs2
          exact Nat.lt_succ_self next
      have hids' : ((reg ++ [newSubscription next hd.1
          (hd.2.getD (Condition.broadcasterUserId userId))]).map
          Subscription.id).Nodup := by
        rw [List.map_append, List.nodup_append]
        refine ⟨hids, by simp, ?_⟩
        intro x hx hy
        obtain ⟨s, hs, rfl⟩ := List.mem_map.mp hx
        have hlt : s.id < next := hfresh s hs
        have hxn : s.id = next := by simpa [newSubscription] using hy
        omega
      obtain ⟨ih1, ih2⟩ := ih _ (next + 1) hnodupT' hlen' hregs' hfresh' hids'
      constructor
      · intro p hp
        rcases List.mem_cons.mp hp with rfl | hp'
        · rw [healthyCount, ih2 p.1 hhd, typeSubs_append]
          have h0 : typeSubs reg p.1 = [] := by
            rw [hregs p (List.mem_cons_self p tl)]
            exact typeSubs_of_find?_eq_none subs0 p.1 hfind
          rw [h0, List.nil_append, hsingleSelf]
          simp [newSubscription, List.filter, isHealthy_pending]
        · exact ih1 p hp'
      · intro t ht
        rw [List.map_cons] at ht
        have ht1 : t ≠ hd.1 := fun h => ht (h ▸ List.mem_cons_self _ _)
        have ht2 : t ∉ tl.map Prod.fst := fun h => ht (List.mem_cons_of_mem _ h)
        rw [ih2 t ht2, typeSubs_append, hsingle _ t ht1, List.append_nil]
    | some e =>
      cases hh : isHealthy e.status with
      | true =>
        have hact : actionsForType subs0 userId hd = [] := by
          simp [actionsForType, hfind, hh]
        rw [hact]
        have happ : applyActions (reg, next) [] = (reg, next) := rfl
        rw [happ]
        have hregs' : ∀ p ∈ tl, typeSubs reg p.1 = typeSubs subs0 p.1 :=
          fun p hp => hregs p (List.mem_cons_of_mem _ hp)
        obtain ⟨ih1, ih2⟩ := ih reg next hnodupT' hlen' hregs' hfresh hids
        constructor
        · intro p hp
          rcases List.mem_cons.mp hp with rfl | hp'
          · rw [healthyCount, ih2 p.1 hhd,
              hregs p (List.mem_cons_self p tl),
              typeSubs_of_find?_eq_some subs0 p.1 e hfind
                (hlen p (List.mem_cons_self p tl))]
            simp [List.filter, hh]
          · exact ih1 p hp'
        · intro t ht
          rw [List.map_cons] at ht
          have ht2 : t ∉ tl.map Prod.fst := fun h => ht (List.mem_cons_of_mem _ h)
          exact ih2 t ht2
      | false =>
        have hact : actionsForType subs0 userId hd =
            [SubAction.delete e.id,
             SubAction.create hd.1
               (hd.2.getD (Condition.broadcasterUserId userId))] := by
          simp [actionsForType, hfind, hh]
        rw [hact]
        have happ : applyActions (reg, next)
            [SubAction.delete e.id,
             SubAction.create hd.1
               (hd.2.getD (Condition.broadcasterUserId userId))] =
            (reg.filter (fun s => s.id != e.id) ++
              [newSubscription next hd.1
                (hd.2.getD (Condition.broadcasterUserId userId))],
             next + 1) := rfl
        rw [happ]
        have hsubs0T : typeSubs subs0 hd.1 = [e] :=
          typeSubs_of_find?_eq_some subs0 hd.1 e hfind
            (hlen hd (List.mem_cons_self hd tl))
        have hregT : typeSubs reg hd.1 = [e] :=
          (hregs hd (List.mem_cons_self hd tl)).trans hsubs0T
        have heReg : e ∈ reg := by
          have he : e ∈ typeSubs reg hd.1 := by
            rw [hregT]; exact List.mem_singleton.mpr rfl
          exact (List.mem_filter.mp he).1
        have heT : e.type = hd.1 := by
          simpa using List.find?_some hfind
        have hkeep : ∀ t : TwitchEventType, t ≠ hd.1 →
            (typeSubs reg t).filter (fun s => s.id != e.id) =
              typeSubs reg t := by
          intro t hte
          rw [List.filter_eq_self]
          intro s hs
          have hsreg : s ∈ reg := (List.mem_filter.mp hs).1
          have hst : s.type = t := by
            simpa using (List.mem_filter.mp hs).2
          have hsne : s.id ≠ e.id := by
            intro hide
            have hse : s = e :=
              List.inj_on_of_nodup_map hids hsreg heReg hide
            rw [hse, heT] at hst
            exact hte hst.symm
          simpa using hsne
        have hregs' : ∀ p ∈ tl,
            typeSubs (reg.filter (fun s => s.id != e.id) ++
              [newSubscription next hd.1
                (hd.2.getD (Condition.broadcasterUserId userId))]) p.1 =
              typeSubs subs0 p.1 := by
          intro p hp
          rw [typeSubs_append, hsingle _ p.1 (hne p hp), List.append_nil,
            typeSubs_filter_comm, hkeep p.1 (hne p hp)]
          exact hregs p (List.mem_cons_of_mem _ hp)
        have hfresh' : ∀ s ∈ reg.filter (fun s => s.id != e.id) ++
            [newSubscription next hd.1
              (hd.2.getD (Condition.broadcasterUserId userId))],
            s.id < next + 1 := by
          intro s hs
          rcases List.mem_append.mp hs with h | h
          · exact Nat.lt_succ_of_lt (hfresh s (List.mem_filter.mp h).1)
          · have hs2 : s = newSubscription next hd.1
                (hd.2.getD (Condition.broadcasterUserId userId)) := by
              simpa using h
            subst hs2
            exact Nat.lt_succ_self next
        have hids' : ((reg.filter (fun s => s.id != e.id) ++
            [newSubscription next hd.1
              (hd.2.getD (Condition.broadcasterUserId userId))]).map
            Subscription.id).Nodup := by
          rw [List.map_append, List.nodup_append]
          refine ⟨List.Nodup.sublist
            (List.Sublist.map Subscription.id (List.filter_sublist reg)) hids,
            by simp, ?_⟩
          intro x hx hy
          obtain ⟨s, hs, rfl⟩ := List.mem_map.mp hx
          have hlt : s.id < next := hfresh s (List.mem_filter.mp hs).1
          have hxn : s.id = next := by simpa [newSubscription] using hy
          omega
        obtain ⟨ih1, ih2⟩ := ih _ (next + 1) hnodupT' hlen' hregs' hfresh' hids'
        constructor
        · intro p hp
          rcases List.mem_cons.mp hp with rfl | hp'
          · rw [healthyCount, ih2 p.1 hhd, typeSubs_append,
              typeSubs_filter_comm, hregT]
            have hdrop : ([e].filter (fun s => s.id != e.id)) = [] := by
              simp
            rw [hdrop, List.nil_append, hsingleSelf]
            simp [newSubscription, List.filter, isHealthy_pending]
          · exact ih1 p hp'
        · intro t ht
          rw [List.map_cons] at ht
          have ht1 : t ≠ hd.1 := fun h => ht (h ▸ List.mem_cons_self _ _)
          have ht2 : t ∉ tl.map Prod.fst := fun h => ht (List.mem_cons_of_mem _ h)
          rw [ih2 t ht2, typeSubs_append, hsingle _ t ht1, List.append_nil,
            typeSubs_filter_comm, hkeep t ht1]

/-- C1 counterexample: from an initial registry already holding two
healthy subscriptions of the desired type channel.follow, the loop finds
the first, sees it healthy and skips, so after setupEventSub the registry
still holds two healthy subscriptions of that type - not exactly one.
The claim is false for arbitrary initial registry states. -/
theorem setupEventSub_duplicate_type_cex :
    (TwitchEventType.channelFollow, (none : Option Condition)) ∈
        eventTypes "u" ∧
    healthyCount
      (setupEventSub
        [{ id := 0, status := SubscriptionStatus.enabled,
           type := TwitchEventType.channelFollow,
           condition := Condition.broadcasterUserId "u" },
         { id := 1, status := SubscriptionStatus.enabled,
           type := TwitchEventType.channelFollow,
           condition := Condition.broadcasterUserId "u" }] "u" 100)
      TwitchEventType.channelFollow = 2 ∧
    healthyCount
      (setupEventSub
        [{ id := 0, status := SubscriptionStatus.enabled,
           type := TwitchEventType.channelFollow,
           condition := Condition.broadcasterUserId "u" },
         { id := 1, status := SubscriptionStatus.enabled,
           type := TwitchEventType.channelFollow,
           condition := Condition.broadcasterUserId "u" }] "u" 100)
      TwitchEventType.channelFollow ≠ 1 := by
  refine ⟨by decide, by decide, by decide⟩

/-- C1 amended: when the initial registry holds at most one subscription
per desired type, subscription ids are distinct, and ids assigned to new
subscriptions are fresh, then after setupEventSub completes the registry
contains exactly one subscription of each desired type with a healthy
status (enabled or webhook_callback_verification_pending). -/
theorem setupEventSub_exactly_one_healthy (subscriptions : List Subscription)
    (userId : String) (freshId : Nat)
    (hlen : ∀ p ∈ eventTypes userId, (typeSubs subscriptions p.1).length ≤ 1)
    (hids : (subscriptions.map Subscription.id).Nodup)
    (hfresh : ∀ s ∈ subscriptions, s.id < freshId) :
    ∀ p ∈ eventTypes userId,
      healthyCount (setupEventSub subscriptions userId freshId) p.1 = 1 := by
  have hmap : (eventTypes userId).map Prod.fst =
      [TwitchEventType.channelFollow, TwitchEventType.channelSubscribe,
       TwitchEventType.channelPointsRedemptionAdd,
       TwitchEventType.channelUpdate, TwitchEventType.channelCheer,
       TwitchEventType.channelSubscriptionGift,
       TwitchEventType.channelRaid] := rfl
  have hnodupT : ((eventTypes userId).map Prod.fst).Nodup := by
    rw [hmap]; decide
  exact (reconcile_loop_invariant subscriptions userId (eventTypes userId)
    subscriptions freshId hnodupT hlen (fun p _ => rfl) hfresh hids).1

/-- Witness for the amended C1 on an initially empty registry. -/
theorem setupEventSub_exactly_one_healthy_witness :
    healthyCount (setupEventSub [] "u" 0) TwitchEventType.channelFollow = 1 :=
  setupEventSub_exactly_one_healthy [] "u" 0 (by decide) (by decide)
    (by decide) (TwitchEventType.channelFollow, none) (by decide)

theorem actionsForType_counts_zero (subs0 : List Subscription)
    (userId : String) (T : TwitchEventType) (e : Subscription)
    (hfind : subs0.find? (fun s => s.type == T) = some e)
    (hids : (subs0.map Subscription.id).Nodup)
    (p : TwitchEventType × Option Condition) (hne : p.1 ≠ T) :
    (actionsForType subs0 userId p).countP
        (fun a => a == SubAction.delete e.id) = 0 ∧
    (actionsForType subs0 userId p).countP (isCreateFor T) = 0 := by
  have hcne : ∀ c : Condition,
      (isCreateFor T (SubAction.create p.1 c)) = false := by
    intro c
    simp [isCreateFor]
    exact hne
  cases hf : subs0.find? (fun s => s.type == p.1) with
  | none =>
    simp [actionsForType, hf, List.countP_cons, hcne]
  | some f =>
    cases hh : isHealthy f.status with
    | true => simp [actionsForType, hf, hh]
    | false =>
      have hfT : f.type = p.1 := by simpa using List.find?_some hf
      have heT : e.type = T := by simpa using List.find?_some hfind
      have hfe : f.id ≠ e.id := by
        intro hide
        have hfeq : f = e :=
          List.inj_on_of_nodup_map hids (List.mem_of_find?_eq_some hf)
            (List.mem_of_find?_eq_some hfind) hide
        rw [hfeq, heT] at hfT
        exact hne hfT.symm
      simp [actionsForType, hf, hh, List.countP_cons, hcne, isCreateFor, hfe]
      exact hne

theorem flatMap_actions_counts_zero (subs0 : List Subscription)
    (userId : String) (T : TwitchEventType) (e : Subscription)
    (hfind : subs0.find? (fun s => s.type == T) = some e)
    (hids : (subs0.map Subscription.id).Nodup) :
    ∀ l : List (TwitchEventType × Option Condition),
      T ∉ l.map Prod.fst →
      (l.flatMap (actionsForType subs0 userId)).countP
          (fun a => a == SubAction.delete e.id) = 0 ∧
      (l.flatMap (actionsForType subs0 userId)).countP (isCreateFor T) = 0 := by
  intro l
  induction l with
  | nil => intro _; exact ⟨rfl, rfl⟩
  | cons hd tl ih =>
    intro hT
    rw [List.map_cons] at hT
    have h1 : hd.1 ≠ T := fun h => hT (h ▸ List.mem_cons_self _ _)
    have h2 : T ∉ tl.map Prod.fst := fun h => hT (List.mem_cons_of_mem _ h)
    obtain ⟨ihd, ihc⟩ := ih h2
    obtain ⟨hhd, hhc⟩ :=
      actionsForType_counts_zero subs0 userId T e hfind hids hd h1
    rw [List.flatMap_cons]
    exact ⟨by rw [List.countP_append, ihd, hhd],
      by rw [List.countP_append, ihc, hhc]⟩

/-- C3: when the listing holds an existing (first-found) subscription of
desired type T with an unhealthy status, reconciliation issues exactly
one delete carrying that subscription's id and exactly one create for T,
and the delete immediately precedes the create in the call sequence. -/
theorem reconcile_unhealthy_delete_then_create
    (subscriptions : List Subscription) (userId : String)
    (T : TwitchEventType) (c : Option Condition) (e : Subscription)
    (hT : (T, c) ∈ eventTypes userId)
    (hfind : subscriptions.find? (fun s => s.type == T) = some e)
    (hunh : isHealthy e.status = false)
    (hids : (subscriptions.map Subscription.id).Nodup) :
    (∃ pre post, reconcileActions subscriptions userId =
        pre ++ SubAction.delete e.id ::
          SubAction.create T (c.getD (Condition.broadcasterUserId userId)) ::
            post) ∧
    (reconcileActions subscriptions userId).countP
        (fun a => a == SubAction.delete e.id) = 1 ∧
    (reconcileActions subscriptions userId).countP (isCreateFor T) = 1 := by
  obtain ⟨l1, l2, hsplit⟩ := List.append_of_mem hT
  have hnodupT : ((eventTypes userId).map Prod.fst).Nodup := by
    have hmap : (eventTypes userId).map Prod.fst =
        [TwitchEventType.channelFollow, TwitchEventType.channelSubscribe,
         TwitchEventType.channelPointsRedemptionAdd,
         TwitchEventType.channelUpdate, TwitchEventType.channelCheer,
         TwitchEventType.channelSubscriptionGift,
         TwitchEventType.channelRaid] := rfl
    rw [hmap]; decide
  rw [hsplit, List.map_append, List.map_cons] at hnodupT
  have hT1 : T ∉ l1.map Prod.fst := by
    intro h
    have := (List.nodup_append.mp hnodupT).2.2
    exact this h (List.mem_cons_self _ _)
  have hT2 : T ∉ l2.map Prod.fst := by
    have := (List.nodup_cons.mp (List.nodup_append.mp hnodupT).2.1).1
    exact this
  have hmid : actionsForType subscriptions userId (T, c) =
      [SubAction.delete e.id,
       SubAction.create T (c.getD (Condition.broadcasterUserId userId))] := by
    simp [actionsForType, hfind, hunh]
  have hflat : reconcileActions subscriptions userId =
      l1.flatMap (actionsForType subscriptions userId) ++
        (SubAction.delete e.id ::
          SubAction.create T (c.getD (Condition.broadcasterUserId userId)) ::
            l2.flatMap (actionsForType subscriptions userId)) := by
    rw [reconcileActions, hsplit, List.flatMap_append, List.flatMap_cons,
      hmid]
    rfl
  obtain ⟨hz1d, hz1c⟩ :=
    flatMap_actions_counts_zero subscriptions userId T e hfind hids l1 hT1
  obtain ⟨hz2d, hz2c⟩ :=
    flatMap_actions_counts_zero subscriptions userId T e hfind hids l2 hT2
  refine ⟨⟨l1.flatMap (actionsForType subscriptions userId),
      l2.flatMap (actionsForType subscriptions userId), hflat⟩, ?_, ?_⟩
  · rw [hflat, List.countP_append, hz1d, List.countP_cons, List.countP_cons,
      hz2d]
    simp [isCreateFor]
  · rw [hflat, List.countP_append, hz1c, List.countP_cons, List.countP_cons,
      hz2c]
    simp [isCreateFor]

/-- Witness for C3: a revoked channel.follow subscription is deleted and
recreated. -/
theorem reconcile_unhealthy_delete_then_create_witness :
    (reconcileActions
        [{ id := 7, status := SubscriptionStatus.authorizationRevoked,
           type := TwitchEventType.channelFollow,
           condition := Condition.broadcasterUserId "u" }] "u").countP
        (fun a => a == SubAction.delete 7) = 1 ∧
    (reconcileActions
        [{ id := 7, status := SubscriptionStatus.authorizationRevoked,
           type := TwitchEventType.channelFollow,
           condition := Condition.broadcasterUserId "u" }] "u").countP
        (isCreateFor TwitchEventType.channelFollow) = 1 :=
  (reconcile_unhealthy_delete_then_create
    [{ id := 7, status := SubscriptionStatus.authorizationRevoked,
       type := TwitchEventType.channelFollow,
       condition := Condition.broadcasterUserId "u" }] "u"
    TwitchEventType.channelFollow none
    { id := 7, status := SubscriptionStatus.authorizationRevoked,
      type := TwitchEventType.channelFollow,
      condition := Condition.broadcasterUserId "u" }
    (by decide) rfl rfl (by decide)).2

/-- C9: when the registry listing is empty, reconciliation issues exactly
one create per desired type, in order, and each create's condition is the
type-specific override when the desired spec declares one (for
`channel.raid` the `to_broadcaster_user_id` filter) and otherwise the
default `broadcaster_user_id` filter. -/
theorem reconcile_empty_registry_creates (userId : String) :
    reconcileActions [] userId =
      [SubAction.create TwitchEventType.channelFollow
         (Condition.broadcasterUserId userId),
       SubAction.create TwitchEventType.channelSubscribe
         (Condition.broadcasterUserId userId),
       SubAction.create TwitchEventType.channelPointsRedemptionAdd
         (Condition.broadcasterUserId userId),
       SubAction.create TwitchEventType.channelUpdate
         (Condition.broadcasterUserId userId),
       SubAction.create TwitchEventType.channelCheer
         (Condition.broadcasterUserId userId),
       SubAction.create TwitchEventType.channelSubscriptionGift
         (Condition.broadcasterUserId userId),
       SubAction.create TwitchEventType.channelRaid
         (Condition.toBroadcasterUserId userId)] := rfl

/-- C2: when every desired type already has an existing subscription in
the listing and every listed subscription is healthy (enabled or pending
verification), reconciliation issues zero delete and zero create calls. -/
theorem reconcile_healthy_noop (subscriptions : List Subscription)
    (userId : String)
    (hex : ∀ p ∈ eventTypes userId, ∃ e ∈ subscriptions, e.type = p.1)
    (hall : ∀ s ∈ subscriptions, isHealthy s.status = true) :
    reconcileActions subscriptions userId = [] := by
  unfold reconcileActions
  rw [List.flatMap_eq_nil_iff]
  intro p hp
  obtain ⟨e, he, het⟩ := hex p hp
  have hsome : (subscriptions.find? (fun sub => sub.type == p.1)).isSome := by
    rw [List.find?_isSome]
    exact ⟨e, he, by simp [het]⟩
  obtain ⟨e₀, hfind⟩ := Option.isSome_iff_exists.mp hsome
  have hmem : e₀ ∈ subscriptions := List.mem_of_find?_eq_some hfind
  simp [actionsForType, hfind, hall e₀ hmem]

/-- Witness for C2 on a concrete registry holding one healthy
subscription of each desired type. -/
theorem reconcile_healthy_noop_witness :
    reconcileActions
      [{ id := 0, status := SubscriptionStatus.enabled,
         type := TwitchEventType.channelFollow,
         condition := Condition.broadcasterUserId "u" },
       { id := 1, status := SubscriptionStatus.webhookCallbackVerificationPending,
         type := TwitchEventType.channelSubscribe,
         condition := Condition.broadcasterUserId "u" },
       { id := 2, status := SubscriptionStatus.enabled,
         type := TwitchEventType.channelPointsRedemptionAdd,
         condition := Condition.broadcasterUserId "u" },
       { id := 3, status := SubscriptionStatus.enabled,
         type := TwitchEventType.channelUpdate,
         condition := Condition.broadcasterUserId "u" },
       { id := 4, status := SubscriptionStatus.enabled,
         type := TwitchEventType.channelCheer,
         condition := Condition.broadcasterUserId "u" },
       { id := 5, status := SubscriptionStatus.enabled,
         type := TwitchEventType.channelSubscriptionGift,
         condition := Condition.broadcasterUserId "u" },
       { id := 6, status := SubscriptionStatus.enabled,
         type := TwitchEventType.channelRaid,
         condition := Condition.toBroadcasterUserId "u" }] "u" = [] :=
  reconcile_healthy_noop _ "u" (by decide) (by decide)

/-- C5: a redemption whose payload carries a reward id with no matching
Reward definition performs none of the three reward actions, requests no
scene switch, and throws nothing. -/
theorem redeem_unknown_reward (config : List Reward)
    (payload : RedemptionPayload) (shellR snapR giveawayR : ActionResult)
    (h : getReward config payload.rewardId = none) :
    redeem config payload shellR snapR giveawayR = ([], false) := by
  simp [redeem, h]

/-- Witness for C5 at an empty reward configuration. -/
theorem redeem_unknown_reward_witness :
    redeem []
      { id := "e1", userId := "2", userLogin := "viewer",
        userName := "alice", userInput := "", rewardId := "nope" }
      ActionResult.ok ActionResult.ok ActionResult.ok = ([], false) :=
  redeem_unknown_reward _ _ _ _ _ rfl

/-- C6: a redemption of a giveaway-entry reward with a declared scene
hands the redeemer's user_name to the giveaway collaborator exactly once
and requests the declared scene exactly once, the entry (trace index 0)
strictly before the scene switch (trace index 1). -/
theorem redeem_giveaway_entry_then_scene (config : List Reward)
    (payload : RedemptionPayload) (reward : Reward) (scene : String)
    (shellR snapR : ActionResult)
    (hget : getReward config payload.rewardId = some reward)
    (htype : reward.type = RewardType.giveawayEntry)
    (hscene : reward.scene = some scene) :
    (redeem config payload shellR snapR ActionResult.ok).1.count
        (Effect.handleNewEntry payload.userName) = 1 ∧
    (redeem config payload shellR snapR ActionResult.ok).1.count
        (Effect.switchScene scene) = 1 ∧
    (redeem config payload shellR snapR ActionResult.ok).1.get? 0 =
        some (Effect.handleNewEntry payload.userName) ∧
    (redeem config payload shellR snapR ActionResult.ok).1.get? 1 =
        some (Effect.switchScene scene) := by
  have hred : redeem config payload shellR snapR ActionResult.ok =
      ([Effect.handleNewEntry payload.userName, Effect.switchScene scene],
        false) := by
    simp [redeem, hget, htype, hscene, redeemGiveawayEntry]
  rw [hred]
  refine ⟨?_, ?_, rfl, rfl⟩ <;> simp [List.count_cons]

/-- Witness for C6 on a concrete giveaway reward with scene cam. -/
theorem redeem_giveaway_entry_then_scene_witness :
    (redeem
        [{ id := "rid", type := RewardType.giveawayEntry,
           scene := some "cam", script := none, key := none }]
        { id := "e1", userId := "2", userLogin := "viewer",
          userName := "alice", userInput := "", rewardId := "rid" }
        ActionResult.ok ActionResult.ok ActionResult.ok).1.count
        (Effect.handleNewEntry "alice") = 1 ∧
    (redeem
        [{ id := "rid", type := RewardType.giveawayEntry,
           scene := some "cam", script := none, key := none }]
        { id := "e1", userId := "2", userLogin := "viewer",
          userName := "alice", userInput := "", rewardId := "rid" }
        ActionResult.ok ActionResult.ok ActionResult.ok).1.count
        (Effect.switchScene "cam") = 1 :=
  let h := redeem_giveaway_entry_then_scene
    [{ id := "rid", type := RewardType.giveawayEntry,
       scene := some "cam", script := none, key := none }]
    { id := "e1", userId := "2", userLogin := "viewer",
      userName := "alice", userInput := "", rewardId := "rid" }
    { id := "rid", type := RewardType.giveawayEntry,
      scene := some "cam", script := none, key := none }
    "cam" ActionResult.ok ActionResult.ok rfl rfl rfl
  ⟨h.1, h.2.1⟩

/-- C7 counterexample: for a giveaway-entry reward, a throwing
`handleNewEntry` collaborator propagates out of the dispatcher to the
caller of `redeem` (the source has no try/catch around it), contradicting
the claim that every reward action's failure is caught inside. -/
theorem redeem_giveaway_throw_escapes :
    (redeem
        [{ id := "rid", type := RewardType.giveawayEntry, scene := none,
           script := none, key := none }]
        { id := "e1", userId := "2", userLogin := "viewer",
          userName := "alice", userInput := "", rewardId := "rid" }
        ActionResult.ok ActionResult.ok ActionResult.fail).2 = true := by
  decide

/-- C7 amended: for shell and snap-filter rewards the side-effect failure
is caught and logged inside the dispatcher and never escapes `redeem`;
only a giveaway-entry failure propagates. -/
theorem redeem_shell_snap_never_throw (config : List Reward)
    (payload : RedemptionPayload) (reward : Reward)
    (shellR snapR giveawayR : ActionResult)
    (hget : getReward config payload.rewardId = some reward)
    (htype : reward.type = RewardType.shell ∨
      reward.type = RewardType.snapFilter) :
    (redeem config payload shellR snapR giveawayR).2 = false := by
  rcases htype with h | h
  · cases hs : reward.script <;> cases shellR <;>
      simp [redeem, hget, h, redeemShell, hs] <;>
      cases reward.scene <;> simp
  · cases hk : reward.key <;> cases snapR <;>
      simp [redeem, hget, h, redeemSnapFilter, hk] <;>
      cases reward.scene <;> simp

/-- Witness for the amended C7: a failing shell script launch is caught. -/
theorem redeem_shell_snap_never_throw_witness :
    (redeem
        [{ id := "sid", type := RewardType.shell, scene := none,
           script := some "p.sh", key := none }]
        { id := "e1", userId := "2", userLogin := "viewer",
          userName := "alice", userInput := "", rewardId := "sid" }
        ActionResult.fail ActionResult.ok ActionResult.ok).2 = false :=
  redeem_shell_snap_never_throw _ _
    { id := "sid", type := RewardType.shell, scene := none,
      script := some "p.sh", key := none }
    _ _ _ rfl (Or.inl rfl)

/-- C4 counterexample: with one unhealthy existing subscription for the
first desired type and a delete whose fetch rejects, the exception
escapes the loop and none of the six subsequent desired types is
processed, contradicting the claim that a failing delete step still lets
every subsequent type be processed. -/
theorem setupEventSubRun_delete_abort :
    (setupEventSubRun
        [{ id := 0, status := SubscriptionStatus.authorizationRevoked,
           type := TwitchEventType.channelFollow,
           condition := Condition.broadcasterUserId "u" }] "u"
        (fun _ => CallResult.netError) (fun _ => CallResult.ok)
        (eventTypes "u")) = ([], true) ∧
    TwitchEventType.channelSubscribe ∉
      (setupEventSubRun
        [{ id := 0, status := SubscriptionStatus.authorizationRevoked,
           type := TwitchEventType.channelFollow,
           condition := Condition.broadcasterUserId "u" }] "u"
        (fun _ => CallResult.netError) (fun _ => CallResult.ok)
        (eventTypes "u")).1 := by
  constructor <;> decide

/-- Helper for the amended C4: when every delete call resolves, the loop
runs every desired entry to completion whatever the create outcomes are
(creates catch their own failures). -/
theorem setupEventSubRun_all_deletes_ok (subscriptions : List Subscription)
    (userId : String) (delO : Nat → CallResult)
    (crO : TwitchEventType → CallResult)
    (hdel : ∀ i, delO i = CallResult.ok) :
    ∀ l, setupEventSubRun subscriptions userId delO crO l =
      (l.map Prod.fst, false) := by
  intro l
  induction l with
  | nil => rfl
  | cons hd tl ih =>
    unfold setupEventSubRun
    cases hfind : subscriptions.find? (fun sub => sub.type == hd.1) with
    | none => cases hcr : crO hd.1 <;> simp [createSubscription, hcr, ih]
    | some e =>
      cases hh : isHealthy e.status with
      | true => simp [hh, ih]
      | false =>
        have hdi := hdel e.id
        cases hcr : crO hd.1 <;>
          simp [hh, hdi, deleteSubscription, createSubscription, hcr, ih]

/-- C4 amended: a failing create step is caught inside
`createSubscription`, so the loop still processes every subsequent
desired type; but a delete whose fetch rejects aborts the loop (the
source awaits `deleteSubscription` without try/catch). Here: when every
delete resolves, all seven desired types are processed whatever the
create outcomes. -/
theorem setupEventSubRun_creates_never_abort (subscriptions : List Subscription)
    (userId : String) (delO : Nat → CallResult)
    (crO : TwitchEventType → CallResult)
    (hdel : ∀ i, delO i = CallResult.ok) :
    setupEventSubRun subscriptions userId delO crO (eventTypes userId) =
      ((eventTypes userId).map Prod.fst, false) :=
  setupEventSubRun_all_deletes_ok subscriptions userId delO crO hdel _

/-- Witness for the amended C4: failing creates, an unhealthy existing
subscription, resolving deletes - all seven types still processed. -/
theorem setupEventSubRun_creates_never_abort_witness :
    setupEventSubRun
      [{ id := 0, status := SubscriptionStatus.authorizationRevoked,
         type := TwitchEventType.channelFollow,
         condition := Condition.broadcasterUserId "u" }] "u"
      (fun _ => CallResult.ok) (fun _ => CallResult.netError)
      (eventTypes "u") = ((eventTypes "u").map Prod.fst, false) :=
  setupEventSubRun_creates_never_abort _ "u" _ _ (fun _ => rfl)

/-- C8: the chat handler triggers winner selection exactly when the
message text starts with the !winner command token and the sending user
equals the configured channel-owner username. -/
theorem chat_winner_trigger_iff (username channel user message : String)
    (isBroadcaster isMod : Bool) :
    Effect.selectWinner ∈
        onChatMessage username channel user message isBroadcaster isMod ↔
      (message.startsWith "!winner" = true ∧ user = username) := by
  cases h1 : message.startsWith "!winner" <;>
    cases h2 : user == username <;>
    simp [onChatMessage, h1, h2] <;>
    simp_all [beq_iff_eq]

/-- C10: every chat message, a !winner message from the channel owner
included, is forwarded to the chat sink exactly once as a
twitch-chat-event carrying channel, user, message, broadcaster and
moderator. -/
theorem chat_event_always_forwarded (username channel user message : String)
    (isBroadcaster isMod : Bool) :
    (onChatMessage username channel user message isBroadcaster isMod).count
        (Effect.emitChatEvent
          { channel := channel, user := user, message := message,
            broadcaster := isBroadcaster, moderator := isMod }) = 1 := by
  cases h : (message.startsWith "!winner" && user == username) <;>
    simp [onChatMessage, h, List.count_cons, List.count_append]

end Overlays
